import Mathlib

/-!
Verification of the coverage data client of the chromium_coverage Gerrit
plugin (`src/web/coverage.ts`) against its natural-language specification.

The embedding models JavaScript runtime values explicitly where the claims
depend on them: a numeric field that may hold `NaN` is a `JsNum`, a `count`
field that may be a number, `null`, or absent (`undefined`) is a `JsCount`,
and object fields that may be absent are `Option`s.  JavaScript string keyed
objects are modelled as association lists read by `jsGet` (first match; the
claims never exercise duplicate keys).  JavaScript numbers are otherwise
modelled as exact integers / rationals.
-/

namespace ChromiumCoverage

/-- A JavaScript number that may be `NaN` (used for change/patchset numbers,
which `updateCoverageDataIfNecessary` tests with `isNaN`). -/
inductive JsNum
  | int (n : Int)
  | nan
deriving DecidableEq

/-- Model of JavaScript `isNaN(x)` for a `JsNum`. -/
def JsNum.isNaN : JsNum → Bool
  | .nan => true
  | .int _ => false

/-- Model of the JavaScript comparison `x <= 0` (false for `NaN`). -/
def JsNum.jsLeZero : JsNum → Bool
  | .nan => false
  | .int n => n ≤ 0

/-- The runtime value of a `count` property of a line entry: a number,
`null`, or absent/`undefined`. -/
inductive JsCount
  | num (n : Int)
  | null
  | undef
deriving DecidableEq

/-- Model of the strict comparison `count === null`. -/
def JsCount.isNull : JsCount → Bool
  | .null => true
  | _ => false

/-- Model of the JavaScript comparison `count > 0`: `null > 0` and
`undefined > 0` are both false. -/
def JsCount.gtZero : JsCount → Bool
  | .num n => 0 < n
  | .null => false
  | .undef => false

/-- JavaScript object property read on a string/number keyed object,
modelled as first-match lookup in an association list. -/
def jsGet {κ α : Type} [DecidableEq κ] (k : κ) : List (κ × α) → Option α
  | [] => none
  | (k2, v) :: rest => if k = k2 then some v else jsGet k rest

/-- The list of integers from `lo` to `hi` inclusive (empty when `hi < lo`);
used to spell out which lines a coverage range covers. -/
def intRange (lo hi : Int) : List Int :=
  (List.range (hi + 1 - lo).toNat).map (fun i : Nat => lo + (i : Int))

/-- Side of a diff a coverage range annotates
(`@gerritcodereview/typescript-api/diff`). -/
inductive Side
  | LEFT
  | RIGHT
deriving DecidableEq

/-- Coverage classification of a range
(`@gerritcodereview/typescript-api/diff`). -/
inductive CoverageType
  | COVERED
  | NOT_COVERED
deriving DecidableEq

/-- Whether a `CoverageType` is the covered classification. -/
def CoverageType.covers : CoverageType → Bool
  | .COVERED => true
  | .NOT_COVERED => false

/-- A coverage range as pushed by `convertResponseJsonToCoverageRanges`
(the nested `code_range` object is flattened into the two line fields). -/
structure CoverageRange where
  side : Side
  type : CoverageType
  start_line : Int
  end_line : Int
deriving DecidableEq

/-- One entry of the `lines` array of a file entry of a coverage-lines
response.  The `line` property is a number; `count` may at runtime be a
number, `null`, or absent. -/
structure LinesCoverage where
  line : Int
  count : JsCount
deriving DecidableEq

/-- A covered/total pair of a percentages response. -/
structure PctCoverage where
  covered : Int
  total : Int
deriving DecidableEq

/-- One file entry of a coverage service response (`CoverageFilesResponse`).
An absent `path` is modelled as the empty string: the source only ever tests
the field with JavaScript truthiness, which identifies the two. -/
structure CoverageFilesResponse where
  path : String
  lines : Option (List LinesCoverage)
  absolute_coverage : Option PctCoverage
  incremental_coverage : Option PctCoverage
  absolute_unit_tests_coverage : Option PctCoverage
  incremental_unit_tests_coverage : Option PctCoverage
deriving DecidableEq

/-- The `data` object of a coverage service response; the `files` property
may be absent at runtime. -/
structure CoverageResponseData where
  files : Option (List CoverageFilesResponse)
deriving DecidableEq

/-- A decoded coverage service JSON payload; the `data` property may be
absent at runtime. -/
structure CoverageResponse where
  data : Option CoverageResponseData
deriving DecidableEq

/-- Builds a file entry carrying only `path` and `lines`, as in a response
of kind `lines`. -/
def mkLinesFile (path : String) (lines : Option (List LinesCoverage)) :
    CoverageFilesResponse :=
  ⟨path, lines, none, none, none, none⟩

/-- Builds a file entry carrying only `path` and the percentage pairs, as in
a response of kind `percentages`. -/
def mkPctFile (path : String) (abs incr absUt incrUt : Option PctCoverage) :
    CoverageFilesResponse :=
  ⟨path, none, abs, incr, absUt, incrUt⟩

/-- Wraps a list of file entries into a well-formed response envelope. -/
def filesResponse (fs : List CoverageFilesResponse) : CoverageResponse :=
  ⟨some ⟨some fs⟩⟩

/-- The error taxonomy of `fetchCoverageJsonData`: the three failure classes
the source raises for a non-successful HTTP response. -/
inductive FetchError
  | projectUnsupported (project : String)
  | serviceDisabled
  | httpError (status : Nat)
deriving DecidableEq

/-- The JSON body of a coverage service response together with the two
service flags the source inspects at the top level; a flag that is absent
from the body is `none`. -/
structure ResponseJson where
  is_project_supported : Option Bool
  is_service_enabled : Option Bool
  payload : CoverageResponse
deriving DecidableEq

/-- The Fetch API `Response.ok` predicate: status in the range 200..299. -/
def responseOk (status : Nat) : Bool :=
  200 ≤ status && status ≤ 299

/-- The response-validation portion of `fetchCoverageJsonData`
(src/web/coverage.ts lines 205-227): given the HTTP status and the decoded
JSON body, either raises one of the typed failures or returns the payload.
The flag tests model the strict comparisons `=== false`. -/
def fetchCoverageJsonData (project : String) (status : Nat)
    (responseJson : ResponseJson) : Except FetchError CoverageResponse :=
  if status = 400 ∧ responseJson.is_project_supported = some false then
    Except.error (FetchError.projectUnsupported project)
  else if status = 500 ∧ responseJson.is_service_enabled = some false then
    Except.error FetchError.serviceDisabled
  else if responseOk status = false then
    Except.error (FetchError.httpError status)
  else
    Except.ok responseJson.payload

/-- Error message raised when the response lacks the `data` property. -/
def linesFormatErrorData : String :=
  "Invalid coverage lines response format. Expecting \"data\" property"

/-- Error message raised when the response lacks the `files` property. -/
def linesFormatErrorFiles : String :=
  "Invalid coverage lines response format. Expecting \"files\" property"

/-- Error message raised when a file entry lacks `path` or `lines`. -/
def linesFormatErrorPathLines : String :=
  "Invalid coverage lines response format. Expecting \"path\" and \"lines\" properties"

/-- Error message raised when a line entry has a falsy `line` or a `null`
`count`. -/
def linesFormatErrorLineCount : String :=
  "Invalid coverage lines response format. Expecting \"line\" and \"count\" properties"

/-- The range object the source pushes: side RIGHT and type from the JS
conditional `isCovered ? COVERED : NOT_COVERED`, where `isCovered` is `null`
or a boolean (`null` is falsy). -/
def mkCoverageRange (startLine endLine : Int) (isCovered : Option Bool) :
    CoverageRange :=
  { side := Side.RIGHT,
    type := match isCovered with
      | some true => CoverageType.COVERED
      | _ => CoverageType.NOT_COVERED,
    start_line := startLine,
    end_line := endLine }

/-- The sort the source performs on a file entry's lines,
`responseLines.sort((a, b) => (a.line > b.line ? 1 : -1))`: ascending by
line number.  For distinct line numbers (the only case in which the
JavaScript comparator induces a deterministic order) any correct sort
produces the same list. -/
def sortLinesCoverage (ls : List LinesCoverage) : List LinesCoverage :=
  List.insertionSort (fun a b => a.line ≤ b.line) ls

/-- The inner loop of `convertResponseJsonToCoverageRanges`
(src/web/coverage.ts lines 269-315) over the sorted lines of one file,
carrying the mutable loop state `startLine`, `endLine`, `isCovered`
(`none` models the initial `null`) and the ranges pushed so far.  A
`startLine` of `-1` marks the absence of an open run, exactly as the
sentinel does in the source. -/
def coalesceLines : List LinesCoverage → Int → Int → Option Bool →
    List CoverageRange → Except String (List CoverageRange)
  | [], startLine, endLine, isCovered, acc =>
    Except.ok (if startLine ≠ -1 then
      acc ++ [mkCoverageRange startLine endLine isCovered] else acc)
  | responseLine :: rest, startLine, endLine, isCovered, acc =>
    if responseLine.line = 0 ∨ responseLine.count.isNull = true then
      Except.error linesFormatErrorLineCount
    else if startLine ≠ -1 ∧ responseLine.line = endLine + 1 ∧
        isCovered = some responseLine.count.gtZero then
      coalesceLines rest startLine (endLine + 1) isCovered acc
    else
      coalesceLines rest responseLine.line responseLine.line
        (some responseLine.count.gtZero)
        (if startLine ≠ -1 then
          acc ++ [mkCoverageRange startLine endLine isCovered] else acc)

/-- The per-file iteration of `convertResponseJsonToCoverageRanges`
(src/web/coverage.ts lines 257-316): validates each file entry and builds
the path-keyed result in iteration order. -/
def convertFilesToRanges : List CoverageFilesResponse →
    Except String (List (String × List CoverageRange))
  | [] => Except.ok []
  | responseFile :: rest =>
    if responseFile.path = "" ∨ responseFile.lines = none then
      Except.error linesFormatErrorPathLines
    else
      match responseFile.lines with
      | none => Except.error linesFormatErrorPathLines
      | some responseLines =>
        match coalesceLines (sortLinesCoverage responseLines)
            (-1) (-1) none [] with
        | Except.error e => Except.error e
        | Except.ok ranges =>
          match convertFilesToRanges rest with
          | Except.error e => Except.error e
          | Except.ok restRanges =>
            Except.ok ((responseFile.path, ranges) :: restRanges)

/-- `convertResponseJsonToCoverageRanges` (src/web/coverage.ts lines
238-319): envelope validation followed by per-file coalescing.  Thrown
`Error`s become `Except.error` carrying the thrown message. -/
def convertResponseJsonToCoverageRanges (responseJson : CoverageResponse) :
    Except String (List (String × List CoverageRange)) :=
  match responseJson.data with
  | none => Except.error linesFormatErrorData
  | some responseData =>
    match responseData.files with
    | none => Except.error linesFormatErrorFiles
    | some responseFiles => convertFilesToRanges responseFiles

/-- Error message raised when a percentages response lacks `data`. -/
def pctFormatErrorData : String :=
  "Invalid coverage percentages response format. Expecting \"data\" property"

/-- Error message raised when a percentages response lacks `files`. -/
def pctFormatErrorFiles : String :=
  "Invalid coverage percentages response format. Expecting \"files\" property"

/-- Error message raised when a percentages file entry lacks `path` or
`absolute_coverage`. -/
def pctFormatErrorPathAbs : String :=
  "Invalid coverage percentages response format. Expecting \"path\" and \"absolute_coverage\" properties"

/-- JavaScript `Math.round` on an exact rational: round half toward
positive infinity. -/
def jsRound (q : ℚ) : Int :=
  ⌊q + 1 / 2⌋

/-- One percentage field computation of
`convertResponseJsonToCoveragePercentages`:
`Math.round((covered * 100) / total)`. -/
def roundPct (p : PctCoverage) : Int :=
  jsRound (((p.covered : ℚ) * 100) / (p.total : ℚ))

/-- The per-file percentage record built by the source; absent input pairs
leave the corresponding field absent. -/
structure PercentageData where
  absolute : Option Int
  incremental : Option Int
  absolute_unit_tests : Option Int
  incremental_unit_tests : Option Int
deriving DecidableEq

/-- The per-file iteration of `convertResponseJsonToCoveragePercentages`
(src/web/coverage.ts lines 364-402): validates `path` and
`absolute_coverage`, then sets each output field exactly when the matching
input pair is present. -/
def convertFilesToPercentages : List CoverageFilesResponse →
    Except String (List (String × PercentageData))
  | [] => Except.ok []
  | responseFile :: rest =>
    if responseFile.path = "" ∨ responseFile.absolute_coverage = none then
      Except.error pctFormatErrorPathAbs
    else
      let fileCov : PercentageData :=
        { absolute := responseFile.absolute_coverage.map roundPct,
          incremental := responseFile.incremental_coverage.map roundPct,
          absolute_unit_tests :=
            responseFile.absolute_unit_tests_coverage.map roundPct,
          incremental_unit_tests :=
            responseFile.incremental_unit_tests_coverage.map roundPct }
      match convertFilesToPercentages rest with
      | Except.error e => Except.error e
      | Except.ok restPcts =>
        Except.ok ((responseFile.path, fileCov) :: restPcts)

/-- `convertResponseJsonToCoveragePercentages` (src/web/coverage.ts lines
346-405). -/
def convertResponseJsonToCoveragePercentages
    (responseJson : CoverageResponse) :
    Except String (List (String × PercentageData)) :=
  match responseJson.data with
  | none => Except.error pctFormatErrorData
  | some responseData =>
    match responseData.files with
    | none => Except.error pctFormatErrorFiles
    | some responseFiles => convertFilesToPercentages responseFiles

/-- Check result category (`@gerritcodereview/typescript-api/checks`); only
`WARNING` is used by the source. -/
inductive Category
  | WARNING
deriving DecidableEq

/-- A check result as pushed by `mayBeShowLowCoverageWarning`. -/
structure CheckResult where
  category : Category
  summary : String
  message : String
deriving DecidableEq

/-- Run status (`@gerritcodereview/typescript-api/checks`); only `COMPLETED`
is used by the source. -/
inductive RunStatus
  | COMPLETED
deriving DecidableEq

/-- Response code (`@gerritcodereview/typescript-api/checks`); only `OK` is
used by the source. -/
inductive ResponseCode
  | OK
deriving DecidableEq

/-- A named check run of a checks fetch response. -/
structure CheckRun where
  checkName : String
  status : RunStatus
  results : List CheckResult
deriving DecidableEq

/-- A checks fetch response. -/
structure FetchResponse where
  responseCode : ResponseCode
  runs : List CheckRun
deriving DecidableEq

/-- The low coverage warning bar (src/web/coverage.ts line 48). -/
def LOW_COVERAGE_WARNING_BAR : Int := 70

/-- The warning record `mayBeShowLowCoverageWarning` pushes for a file with
low incremental coverage, message text as concatenated by the source. -/
def lowCoverageWarning (file : String) (incremental : Int) : CheckResult :=
  { category := Category.WARNING,
    summary := "Incremental coverage < " ++ toString LOW_COVERAGE_WARNING_BAR ++ "%",
    message := "Incremental coverage for " ++ file ++ " is " ++
      toString incremental ++ " which is < the bar(" ++
      toString LOW_COVERAGE_WARNING_BAR ++ "%). Please add tests for uncovered lines." }

/-- The warning-collection loop of `mayBeShowLowCoverageWarning`
(src/web/coverage.ts lines 590-605) over the resolved percentages map in
key order.  The guard models the JavaScript condition
`incremental && incremental < LOW_COVERAGE_WARNING_BAR`, whose first
conjunct is a truthiness test: an absent field and a zero value are both
falsy and skip the warning. -/
def lowCoverageWarnings (coveragePercentages : List (String × PercentageData)) :
    List CheckResult :=
  coveragePercentages.foldl (fun warnings fileEntry =>
    match fileEntry.2.incremental with
    | some incremental =>
      if incremental ≠ 0 ∧ incremental < LOW_COVERAGE_WARNING_BAR then
        warnings ++ [lowCoverageWarning fileEntry.1 incremental]
      else warnings
    | none => warnings) []

/-- `mayBeShowLowCoverageWarning` (src/web/coverage.ts lines 569-625) after
`updateCoverageDataIfNecessary` has run: the input is the client's
`coverageData` percentages promise outcome (`none` when no cache entry
exists; `Except.error` when the promise rejects; `Except.ok none` when it
resolves to `null`).  Rejections are caught and produce an empty OK
response. -/
def mayBeShowLowCoverageWarning
    (percentagesOutcome :
      Option (Except Unit (Option (List (String × PercentageData))))) :
    FetchResponse :=
  match percentagesOutcome with
  | none => ⟨ResponseCode.OK, []⟩
  | some (Except.error _) => ⟨ResponseCode.OK, []⟩
  | some (Except.ok resolved) =>
    ⟨ResponseCode.OK,
      [⟨"Low Coverage Check", RunStatus.COMPLETED,
        lowCoverageWarnings (resolved.getD [])⟩]⟩

/-- The JavaScript value `provideCoveragePercentages` resolves to:
`undefined`, `null`, or a percentage record. -/
inductive ProvidedPercentage
  | undef
  | null
  | val (p : PercentageData)
deriving DecidableEq

/-- `provideCoveragePercentages` (src/web/coverage.ts lines 532-559) after
`updateCoverageDataIfNecessary` has run: the input is the client's
`coverageData` percentages promise outcome as for
`mayBeShowLowCoverageWarning`.  A missing cache entry and a `null`
resolution return `null`; a caught rejection returns `null`; a resolved map
returns its entry for `path`, which is `undefined` when the path has none. -/
def provideCoveragePercentages
    (percentagesOutcome :
      Option (Except Unit (Option (List (String × PercentageData)))))
    (path : String) : ProvidedPercentage :=
  match percentagesOutcome with
  | none => ProvidedPercentage.null
  | some (Except.error _) => ProvidedPercentage.null
  | some (Except.ok none) => ProvidedPercentage.null
  | some (Except.ok (some coveragePercentages)) =>
    match jsGet path coveragePercentages with
    | some p => ProvidedPercentage.val p
    | none => ProvidedPercentage.undef

/-- The cache key (`CoverageChangeInfo` in the source): host, project,
change number and patchset number, the latter two as JavaScript numbers
(`patchNum` may additionally be `undefined`). -/
structure CoverageChangeInfo where
  host : String
  project : String
  changeNum : JsNum
  patchNum : Option JsNum
deriving DecidableEq

/-- The validity guard of `updateCoverageDataIfNecessary`
(src/web/coverage.ts lines 431-439): true exactly when the early return is
taken. -/
def invalidChangeKey (changeInfo : CoverageChangeInfo) : Bool :=
  match changeInfo.patchNum with
  | none => true
  | some patchNum =>
    changeInfo.changeNum.isNaN || patchNum.isNaN ||
      changeInfo.changeNum.jsLeZero || patchNum.jsLeZero

/-- Which of the two coverage fetches a promise belongs to. -/
inductive FetchKind
  | lines
  | percentages
deriving DecidableEq

/-- The client's `coverageData` cache entry: the key it was created for and
the identities of the two promises started at creation.  Promise identities
stand for the promise objects; the data a promise eventually carries is
fixed at its creation (it is the fetch result for the key stored in
`promiseKeys`), so identity is all the model needs. -/
structure CoverageData where
  changeInfo : CoverageChangeInfo
  rangesPromise : Nat
  percentagesPromise : Nat
deriving DecidableEq

/-- The state of a `CoverageClient` together with the event-loop bookkeeping
the concurrency claims quantify over: the promises created so far (with the
key and kind they were fetched for), which promises have settled, the
accessor tasks suspended awaiting a snapshotted promise, and the promise
each finished accessor returned data from (`none` when the accessor
returned `undefined` because no cache entry existed). -/
structure ClientState where
  coverageData : Option CoverageData
  nextPromiseId : Nat
  promiseKeys : List (Nat × CoverageChangeInfo × FetchKind)
  settled : List Nat
  pendingAwaits : List (Nat × Nat)
  accessorResults : List (Nat × Option Nat)
deriving DecidableEq

/-- The initial client state: no cache entry, no promises, no tasks. -/
def ClientState.init : ClientState :=
  ⟨none, 0, [], [], [], []⟩

/-- The cache replacement arm of `updateCoverageDataIfNecessary`
(src/web/coverage.ts lines 446-456): a new `CoverageData` whose two fetches
start immediately as fresh promises.  Returns the new state and the fetches
started. -/
def replaceCoverageData (s : ClientState) (changeInfo : CoverageChangeInfo) :
    ClientState × List (CoverageChangeInfo × FetchKind) :=
  ({ s with
      coverageData :=
        some ⟨changeInfo, s.nextPromiseId, s.nextPromiseId + 1⟩,
      nextPromiseId := s.nextPromiseId + 2,
      promiseKeys :=
        (s.nextPromiseId, changeInfo, FetchKind.lines) ::
          (s.nextPromiseId + 1, changeInfo, FetchKind.percentages) ::
            s.promiseKeys },
   [(changeInfo, FetchKind.lines), (changeInfo, FetchKind.percentages)])

/-- `updateCoverageDataIfNecessary` (src/web/coverage.ts lines 430-458):
invalid keys are a no-op; a missing entry or a key mismatch replaces the
entry and starts both fetches; a structurally equal key is a no-op.  The
source compares keys by `JSON.stringify` equality, which for keys passing
the validity guard coincides with structural equality. -/
def updateCoverageDataIfNecessary (s : ClientState)
    (changeInfo : CoverageChangeInfo) :
    ClientState × List (CoverageChangeInfo × FetchKind) :=
  if invalidChangeKey changeInfo = true then (s, [])
  else
    match s.coverageData with
    | none => replaceCoverageData s changeInfo
    | some coverageData =>
      if changeInfo = coverageData.changeInfo then (s, [])
      else replaceCoverageData s changeInfo

/-- Events of the cooperative event loop the concurrency claims range over:
a bare cache refresh (`prefetchCoverageRanges` path), the synchronous prefix
of an accessor call (`provideCoverageRanges` /
`provideCoveragePercentages`: refresh, then snapshot the promise of the
current entry for its kind before awaiting), the settling of a fetch
promise, and the resumption of a suspended accessor after its snapshotted
promise settled. -/
inductive ClientEvent
  | update (changeInfo : CoverageChangeInfo)
  | beginAccessor (changeInfo : CoverageChangeInfo) (kind : FetchKind) (tid : Nat)
  | settleFetch (pid : Nat)
  | finishAccessor (tid : Nat)

/-- True for events that neither touch the cache nor start or finish
accessor calls: fetch resolutions and resumptions. -/
def ClientEvent.isQuiet : ClientEvent → Bool
  | .settleFetch _ => true
  | .finishAccessor _ => true
  | _ => false

/-- True for events that mention no key other than `k`. -/
def ClientEvent.usesOnly (k : CoverageChangeInfo) : ClientEvent → Bool
  | .update k2 => k2 = k
  | .beginAccessor k2 _ _ => k2 = k
  | _ => true

/-- One step of the event loop.  An accessor call runs
`updateCoverageDataIfNecessary` and then synchronously snapshots the
promise out of the current `coverageData` entry — before any suspension
point, and it is never re-read after the await, exactly as in
`provideCoverageRanges` (src/web/coverage.ts lines 482-496) and
`provideCoveragePercentages` (lines 543-559); when no entry exists the
accessor completes immediately with no data.  A suspended accessor can
finish only after its snapshotted promise settled, and the promise it
returns data from is the snapshot, whatever the cache holds by then. -/
def stepClient (s : ClientState) : ClientEvent → ClientState
  | .update changeInfo => (updateCoverageDataIfNecessary s changeInfo).1
  | .beginAccessor changeInfo kind tid =>
    let s1 := (updateCoverageDataIfNecessary s changeInfo).1
    match s1.coverageData with
    | some coverageData =>
      let pid := match kind with
        | FetchKind.lines => coverageData.rangesPromise
        | FetchKind.percentages => coverageData.percentagesPromise
      { s1 with pendingAwaits := (tid, pid) :: s1.pendingAwaits }
    | none =>
      { s1 with accessorResults := (tid, none) :: s1.accessorResults }
  | .settleFetch pid => { s with settled := pid :: s.settled }
  | .finishAccessor tid =>
    match jsGet tid s.pendingAwaits with
    | some pid =>
      if pid ∈ s.settled then
        { s with accessorResults := (tid, some pid) :: s.accessorResults }
      else s
    | none => s

/-- Runs a list of events from a state. -/
def runClient (s : ClientState) (es : List ClientEvent) : ClientState :=
  es.foldl stepClient s

/-- Proof-level restatement of the coalescing loop once a run
`(startLine, endLine, isCovered)` is open: used to relate `coalesceLines`
to the run structure it produces.  Not part of the source model. -/
def coalesceRuns (startLine endLine : Int) (isCovered : Bool) :
    List LinesCoverage → List CoverageRange
  | [] => [mkCoverageRange startLine endLine (some isCovered)]
  | responseLine :: rest =>
    if responseLine.line = endLine + 1 ∧
        responseLine.count.gtZero = isCovered then
      coalesceRuns startLine (endLine + 1) isCovered rest
    else
      mkCoverageRange startLine endLine (some isCovered) ::
        coalesceRuns responseLine.line responseLine.line
          responseLine.count.gtZero rest

/-- The ranges the coalescing loop produces for an already-sorted line
list.  Not part of the source model. -/
def linesToRanges : List LinesCoverage → List CoverageRange
  | [] => []
  | responseLine :: rest =>
    coalesceRuns responseLine.line responseLine.line
      responseLine.count.gtZero rest

/-- The (line number, is-covered) cells a coverage range stands for; the
flattening of a range list over this function spells out exactly which
lines it covers with which classification. -/
def rangeCells (r : CoverageRange) : List (Int × Bool) :=
  (intRange r.start_line r.end_line).map (fun n => (n, r.type.covers))

/-- Two adjacent ranges are non-mergeable when they do not form a single
contiguous run of one classification; a list that is `List.Chain'` of this
relation is maximal (minimal in length) as a run decomposition. -/
def notMergeable (r1 r2 : CoverageRange) : Prop :=
  ¬(r2.start_line = r1.end_line + 1 ∧ r1.type = r2.type)

/-- Modelled from the spec sentence of claim C6 as amended: the warning a
single file entry contributes, `none` when the incremental field is absent,
zero, or at least the bar. -/
def warnsFor (fileEntry : String × PercentageData) : Option CheckResult :=
  match fileEntry.2.incremental with
  | some incremental =>
    if incremental ≠ 0 ∧ incremental < LOW_COVERAGE_WARNING_BAR then
      some (lowCoverageWarning fileEntry.1 incremental)
    else none
  | none => none

/-- All promise identities a state can ever hand to an accessor are at
least `n`: the next identity counter, the cache entry's promises, every
pending snapshot and every recorded result.  Preserved by every event. -/
def pidsFresh (n : Nat) (s : ClientState) : Prop :=
  n ≤ s.nextPromiseId ∧
  (∀ cd, s.coverageData = some cd →
    n ≤ cd.rangesPromise ∧ n ≤ cd.percentagesPromise) ∧
  (∀ tp ∈ s.pendingAwaits, n ≤ tp.2) ∧
  (∀ tr ∈ s.accessorResults, ∀ pid, tr.2 = some pid → n ≤ pid)

/-- The state after the interleaving of claim C1: an update for `K1`, an
arbitrary stretch of fetch resolutions, then the update for `K2` that
replaces the entry. -/
def raceStates (s0 : ClientState) (K1 K2 : CoverageChangeInfo)
    (es1 : List ClientEvent) : ClientState :=
  stepClient (runClient (stepClient s0 (ClientEvent.update K1)) es1)
    (ClientEvent.update K2)

theorem jsGet_mem {κ α : Type} [DecidableEq κ] {k : κ} {v : α} :
    ∀ {l : List (κ × α)}, jsGet k l = some v → (k, v) ∈ l := by
  intro l h
  induction l with
  | nil => simp [jsGet] at h
  | cons p rest ih =>
    obtain ⟨k2, v2⟩ := p
    rw [jsGet] at h
    split at h
    · next heq =>
      obtain rfl : v2 = v := by injection h
      rw [heq]
      exact List.mem_cons_self _ _
    · exact List.mem_cons_of_mem _ (ih h)

theorem intRange_self (lo : Int) : intRange lo lo = [lo] := by
  unfold intRange
  rw [show lo + 1 - lo = 1 by ring]
  rw [show ((1 : Int).toNat) = 1 by rfl, List.range_succ, List.range_zero]
  simp

theorem intRange_succ {lo hi : Int} (h : lo ≤ hi + 1) :
    intRange lo (hi + 1) = intRange lo hi ++ [hi + 1] := by
  unfold intRange
  have h1 : (hi + 1 + 1 - lo).toNat = (hi + 1 - lo).toNat + 1 := by omega
  rw [h1, List.range_succ, List.map_append]
  congr 1
  simp only [List.map_cons, List.map_nil, List.cons.injEq, and_true]
  omega

/-- Claim C7: for every response of `fetchCoverageJsonData`, an HTTP 400
status whose JSON body has `is_project_supported === false` fails with a
project-unsupported error; an HTTP 500 status whose body has
`is_service_enabled === false` fails with a service-disabled error; any
other non-2xx status fails with an HTTP-status error carrying the status
code; and every non-2xx response fails with an error, never with
silently-empty data. -/
theorem c7_http_failure_taxonomy (project : String) (status : Nat)
    (responseJson : ResponseJson) :
    (status = 400 → responseJson.is_project_supported = some false →
      fetchCoverageJsonData project status responseJson =
        Except.error (FetchError.projectUnsupported project)) ∧
    (status = 500 → responseJson.is_service_enabled = some false →
      fetchCoverageJsonData project status responseJson =
        Except.error FetchError.serviceDisabled) ∧
    (responseOk status = false →
      ¬(status = 400 ∧ responseJson.is_project_supported = some false) →
      ¬(status = 500 ∧ responseJson.is_service_enabled = some false) →
      fetchCoverageJsonData project status responseJson =
        Except.error (FetchError.httpError status)) ∧
    (responseOk status = false →
      ∃ e, fetchCoverageJsonData project status responseJson =
        Except.error e) := by
  have h3 : responseOk status = false →
      ¬(status = 400 ∧ responseJson.is_project_supported = some false) →
      ¬(status = 500 ∧ responseJson.is_service_enabled = some false) →
      fetchCoverageJsonData project status responseJson =
        Except.error (FetchError.httpError status) := by
    intro hok hn1 hn2
    simp [fetchCoverageJsonData, hok, hn1, hn2]
  refine ⟨?_, ?_, h3, ?_⟩
  · intro h400 hflag
    simp [fetchCoverageJsonData, h400, hflag]
  · intro h500 hflag
    simp [fetchCoverageJsonData, h500, hflag]
  · intro hok
    by_cases hc1 : status = 400 ∧ responseJson.is_project_supported = some false
    · exact ⟨FetchError.projectUnsupported project,
        by simp [fetchCoverageJsonData, hc1]⟩
    · by_cases hc2 : status = 500 ∧ responseJson.is_service_enabled = some false
      · exact ⟨FetchError.serviceDisabled,
          by simp [fetchCoverageJsonData, hc1, hc2]⟩
      · exact ⟨FetchError.httpError status, h3 hok hc1 hc2⟩

/-- Witness for C7 at concrete inputs: a 400 with the project flag, a 500
with the service flag, and a plain 404. -/
theorem c7_witness :
    (responseOk 404 = false ∧
      ¬((404 : Nat) = 400 ∧
        (⟨none, none, ⟨none⟩⟩ : ResponseJson).is_project_supported = some false) ∧
      ¬((404 : Nat) = 500 ∧
        (⟨none, none, ⟨none⟩⟩ : ResponseJson).is_service_enabled = some false)) ∧
    fetchCoverageJsonData "chromium/src" 400 ⟨some false, none, ⟨none⟩⟩ =
      Except.error (FetchError.projectUnsupported "chromium/src") ∧
    fetchCoverageJsonData "chromium/src" 500 ⟨none, some false, ⟨none⟩⟩ =
      Except.error FetchError.serviceDisabled ∧
    fetchCoverageJsonData "chromium/src" 404 ⟨none, none, ⟨none⟩⟩ =
      Except.error (FetchError.httpError 404) := by
  refine ⟨⟨by decide, by decide, by decide⟩, ?_, ?_, ?_⟩
  · exact (c7_http_failure_taxonomy "chromium/src" 400 _).1 rfl rfl
  · exact (c7_http_failure_taxonomy "chromium/src" 500 _).2.1 rfl rfl
  · exact (c7_http_failure_taxonomy "chromium/src" 404 _).2.2.1
      (by decide) (by decide) (by decide)

/-- Claim C9, counterexample: when the percentages promise rejects, the
accessor returns `null`, not `undefined` as the claim states. -/
theorem c9_counterexample :
    provideCoveragePercentages (some (Except.error ())) "base/test.cc" =
      ProvidedPercentage.null ∧
    ProvidedPercentage.null ≠ ProvidedPercentage.undef :=
  ⟨rfl, by decide⟩

/-- Claim C9 as amended: when the percentages map resolves but has no entry
for the requested path the call returns `undefined`; when the underlying
fetch/parse fails (the promise rejects), when the promise resolves to
`null`, or when no cache entry exists, the call returns `null`; in every
case the error is caught, never propagated. -/
theorem c9_percentage_accessor_neutral
    (m : List (String × PercentageData)) (path : String) :
    (jsGet path m = none →
      provideCoveragePercentages (some (Except.ok (some m))) path =
        ProvidedPercentage.undef) ∧
    (provideCoveragePercentages (some (Except.error ())) path =
      ProvidedPercentage.null) ∧
    (provideCoveragePercentages (some (Except.ok none)) path =
      ProvidedPercentage.null) ∧
    (provideCoveragePercentages none path = ProvidedPercentage.null) := by
  refine ⟨?_, rfl, rfl, rfl⟩
  intro h
  simp [provideCoveragePercentages, h]

/-- Witness for C9 as amended: the empty resolved map has no entry for the
path, and the accessor returns `undefined` there. -/
theorem c9_witness :
    jsGet "base/test.cc" ([] : List (String × PercentageData)) = none ∧
    provideCoveragePercentages
      (some (Except.ok (some ([] : List (String × PercentageData)))))
      "base/test.cc" = ProvidedPercentage.undef :=
  ⟨rfl, (c9_percentage_accessor_neutral [] "base/test.cc").1 rfl⟩

theorem lowCoverageWarnings_foldl
    (m : List (String × PercentageData)) :
    ∀ acc : List CheckResult,
      m.foldl (fun warnings fileEntry =>
        match fileEntry.2.incremental with
        | some incremental =>
          if incremental ≠ 0 ∧ incremental < LOW_COVERAGE_WARNING_BAR then
            warnings ++ [lowCoverageWarning fileEntry.1 incremental]
          else warnings
        | none => warnings) acc =
      acc ++ m.filterMap warnsFor := by
  induction m with
  | nil => intro acc; simp
  | cons fileEntry rest ih =>
    intro acc
    simp only [List.foldl_cons, List.filterMap_cons]
    cases h : fileEntry.2.incremental with
    | none => simp [h, warnsFor, ih]
    | some incremental =>
      by_cases hc : incremental ≠ 0 ∧ incremental < LOW_COVERAGE_WARNING_BAR
      · simp [h, warnsFor, hc, ih]
      · simp [h, warnsFor, hc, ih]

/-- Claim C6, counterexample: a file whose incremental percentage is present
and equal to 0 — strictly below the bar of 70 — produces no warning, because
the source guards with JavaScript truthiness (`incremental && ...`) and `0`
is falsy. -/
theorem c6_counterexample :
    (0 : Int) < LOW_COVERAGE_WARNING_BAR ∧
    lowCoverageWarnings [("base/test.cc", ⟨none, some 0, none, none⟩)] = [] :=
  ⟨by decide, rfl⟩

/-- Claim C6 as amended: for every resolved percentages map,
`mayBeShowLowCoverageWarning` emits exactly one warning for each file whose
incremental percentage field is present, nonzero, and strictly below the
fixed bar 70 (the warning message referencing that file), and no warning
for any file whose incremental field is zero, at least 70, or absent;
incremental 50 produces exactly one warning, 80 produces none, an absent
field produces none. -/
theorem c6_low_coverage_warnings (m : List (String × PercentageData)) :
    lowCoverageWarnings m = m.filterMap warnsFor ∧
    mayBeShowLowCoverageWarning (some (Except.ok (some m))) =
      ⟨ResponseCode.OK,
        [⟨"Low Coverage Check", RunStatus.COMPLETED, lowCoverageWarnings m⟩]⟩ ∧
    lowCoverageWarnings [("base/test.cc", ⟨some 80, some 50, none, none⟩)] =
      [lowCoverageWarning "base/test.cc" 50] ∧
    lowCoverageWarnings [("base/test.cc", ⟨some 80, some 80, none, none⟩)] = [] ∧
    lowCoverageWarnings [("base/test.cc", ⟨some 30, none, none, none⟩)] = [] := by
  refine ⟨?_, rfl, rfl, rfl, rfl⟩
  exact lowCoverageWarnings_foldl m []

theorem updateCoverageDataIfNecessary_cases (s : ClientState)
    (k : CoverageChangeInfo) :
    updateCoverageDataIfNecessary s k = (s, []) ∨
    updateCoverageDataIfNecessary s k = replaceCoverageData s k := by
  unfold updateCoverageDataIfNecessary
  split
  · exact Or.inl rfl
  · split
    · exact Or.inr rfl
    · split
      · exact Or.inl rfl
      · exact Or.inr rfl

theorem update_same_key_noop (s : ClientState) (k : CoverageChangeInfo)
    (cd : CoverageData) (hcd : s.coverageData = some cd)
    (hkey : cd.changeInfo = k) :
    updateCoverageDataIfNecessary s k = (s, []) := by
  unfold updateCoverageDataIfNecessary
  split
  · rfl
  · rw [hcd]
    simp [hkey]

theorem update_valid_replaces (s : ClientState) (k : CoverageChangeInfo)
    (hvalid : invalidChangeKey k = false)
    (hdiff : ∀ cd, s.coverageData = some cd → cd.changeInfo ≠ k) :
    updateCoverageDataIfNecessary s k = replaceCoverageData s k := by
  unfold updateCoverageDataIfNecessary
  rw [hvalid]
  simp only [Bool.false_eq_true, if_false]
  cases hcd : s.coverageData with
  | none => rfl
  | some cd =>
    have : k ≠ cd.changeInfo := fun h => hdiff cd hcd (h.symm)
    simp [this]

theorem update_valid_cache_key (s : ClientState) (k : CoverageChangeInfo)
    (hvalid : invalidChangeKey k = false) :
    ∃ cd, (updateCoverageDataIfNecessary s k).1.coverageData = some cd ∧
      cd.changeInfo = k := by
  unfold updateCoverageDataIfNecessary
  rw [hvalid]
  simp only [Bool.false_eq_true, if_false]
  cases hcd : s.coverageData with
  | none => exact ⟨⟨k, s.nextPromiseId, s.nextPromiseId + 1⟩, rfl, rfl⟩
  | some cd =>
    by_cases hk : k = cd.changeInfo
    · simp only [hk, if_pos rfl]
      exact ⟨cd, hcd, rfl⟩
    · simp only [if_neg hk]
      exact ⟨⟨k, s.nextPromiseId, s.nextPromiseId + 1⟩, rfl, rfl⟩

theorem update_fetches (s : ClientState) (k : CoverageChangeInfo) :
    (updateCoverageDataIfNecessary s k).2 = [] ∨
    (updateCoverageDataIfNecessary s k).2 =
      [(k, FetchKind.lines), (k, FetchKind.percentages)] := by
  rcases updateCoverageDataIfNecessary_cases s k with h | h <;> rw [h]
  · exact Or.inl rfl
  · exact Or.inr rfl

/-- Claim C5: for every `ChangeKey` whose `patchNum` is undefined, whose
`changeNum` or `patchNum` is `NaN`, or whose `changeNum` or `patchNum` is
at most 0, `updateCoverageDataIfNecessary` starts no fetch of any kind and
leaves the stored `coverageData` state exactly as it was before the call. -/
theorem c5_invalid_key_noop (s : ClientState) (k : CoverageChangeInfo)
    (h : k.patchNum = none ∨ k.changeNum = JsNum.nan ∨
      k.patchNum = some JsNum.nan ∨
      (∃ c, k.changeNum = JsNum.int c ∧ c ≤ 0) ∨
      (∃ p, k.patchNum = some (JsNum.int p) ∧ p ≤ 0)) :
    updateCoverageDataIfNecessary s k = (s, []) := by
  have hinv : invalidChangeKey k = true := by
    unfold invalidChangeKey
    rcases h with h | h | h | ⟨c, hc, hc0⟩ | ⟨p, hp, hp0⟩
    · rw [h]
    · cases hpn : k.patchNum with
      | none => rfl
      | some patchNum => simp [h, JsNum.isNaN]
    · rw [h]
      simp [JsNum.isNaN]
    · cases hpn : k.patchNum with
      | none => rfl
      | some patchNum => simp [hc, JsNum.isNaN, JsNum.jsLeZero, hc0]
    · rw [hp]
      simp [JsNum.isNaN, JsNum.jsLeZero, hp0]
  unfold updateCoverageDataIfNecessary
  rw [hinv]
  rfl

/-- Witness for C5: an undefined patchset number is a no-op from the fresh
client state. -/
theorem c5_witness :
    (⟨"chromium-review.googlesource.com", "chromium/src", JsNum.int 12345,
      none⟩ : CoverageChangeInfo).patchNum = none ∧
    updateCoverageDataIfNecessary ClientState.init
      ⟨"chromium-review.googlesource.com", "chromium/src", JsNum.int 12345,
        none⟩ = (ClientState.init, []) :=
  ⟨rfl, c5_invalid_key_noop ClientState.init _ (Or.inl rfl)⟩

/-- Claim C2: for every valid `ChangeKey`, if `updateCoverageDataIfNecessary`
is invoked twice in sequence with structurally equal keys and no intervening
call, the second call leaves the state unchanged and starts no fetch — it
reuses the first call's cache entry and stored promises — and across both
calls at most one fetch per kind is started. -/
theorem c2_single_fetch_reuse (s : ClientState) (k : CoverageChangeInfo)
    (hvalid : invalidChangeKey k = false) :
    (updateCoverageDataIfNecessary
        (updateCoverageDataIfNecessary s k).1 k).1 =
      (updateCoverageDataIfNecessary s k).1 ∧
    (updateCoverageDataIfNecessary
        (updateCoverageDataIfNecessary s k).1 k).2 = [] ∧
    ((updateCoverageDataIfNecessary s k).2 ++
        (updateCoverageDataIfNecessary
          (updateCoverageDataIfNecessary s k).1 k).2).countP
      (fun f => decide (f.2 = FetchKind.lines)) ≤ 1 ∧
    ((updateCoverageDataIfNecessary s k).2 ++
        (updateCoverageDataIfNecessary
          (updateCoverageDataIfNecessary s k).1 k).2).countP
      (fun f => decide (f.2 = FetchKind.percentages)) ≤ 1 := by
  obtain ⟨cd, hcd, hkey⟩ := update_valid_cache_key s k hvalid
  have hsecond := update_same_key_noop _ k cd hcd hkey
  rw [hsecond]
  refine ⟨rfl, rfl, ?_, ?_⟩ <;>
    rcases update_fetches s k with h | h <;> rw [h] <;> simp [List.countP_cons]

/-- Witness for C2 at a concrete valid key from the fresh client state. -/
theorem c2_witness :
    invalidChangeKey ⟨"chromium-review.googlesource.com", "chromium/src",
      JsNum.int 12345, some (JsNum.int 2)⟩ = false ∧
    ((updateCoverageDataIfNecessary
        (updateCoverageDataIfNecessary ClientState.init
          ⟨"chromium-review.googlesource.com", "chromium/src",
            JsNum.int 12345, some (JsNum.int 2)⟩).1
        ⟨"chromium-review.googlesource.com", "chromium/src",
          JsNum.int 12345, some (JsNum.int 2)⟩).1 =
      (updateCoverageDataIfNecessary ClientState.init
        ⟨"chromium-review.googlesource.com", "chromium/src",
          JsNum.int 12345, some (JsNum.int 2)⟩).1 ∧
    (updateCoverageDataIfNecessary
        (updateCoverageDataIfNecessary ClientState.init
          ⟨"chromium-review.googlesource.com", "chromium/src",
            JsNum.int 12345, some (JsNum.int 2)⟩).1
        ⟨"chromium-review.googlesource.com", "chromium/src",
          JsNum.int 12345, some (JsNum.int 2)⟩).2 = [] ∧
    ((updateCoverageDataIfNecessary ClientState.init
        ⟨"chromium-review.googlesource.com", "chromium/src",
          JsNum.int 12345, some (JsNum.int 2)⟩).2 ++
        (updateCoverageDataIfNecessary
          (updateCoverageDataIfNecessary ClientState.init
            ⟨"chromium-review.googlesource.com", "chromium/src",
              JsNum.int 12345, some (JsNum.int 2)⟩).1
          ⟨"chromium-review.googlesource.com", "chromium/src",
            JsNum.int 12345, some (JsNum.int 2)⟩).2).countP
      (fun f => decide (f.2 = FetchKind.lines)) ≤ 1 ∧
    ((updateCoverageDataIfNecessary ClientState.init
        ⟨"chromium-review.googlesource.com", "chromium/src",
          JsNum.int 12345, some (JsNum.int 2)⟩).2 ++
        (updateCoverageDataIfNecessary
          (updateCoverageDataIfNecessary ClientState.init
            ⟨"chromium-review.googlesource.com", "chromium/src",
              JsNum.int 12345, some (JsNum.int 2)⟩).1
          ⟨"chromium-review.googlesource.com", "chromium/src",
            JsNum.int 12345, some (JsNum.int 2)⟩).2).countP
      (fun f => decide (f.2 = FetchKind.percentages)) ≤ 1) :=
  ⟨rfl, c2_single_fetch_reuse ClientState.init _ rfl⟩

theorem jsRound_eq {q : ℚ} {z : Int} (h1 : (z : ℚ) ≤ q + 1 / 2)
    (h2 : q + 1 / 2 < z + 1) : jsRound q = z := by
  unfold jsRound
  rw [Int.floor_eq_iff]
  exact ⟨h1, h2⟩

theorem roundPct_3_10 : roundPct ⟨3, 10⟩ = 30 := by
  unfold roundPct
  exact jsRound_eq (by norm_num) (by norm_num)

theorem roundPct_3_4 : roundPct ⟨3, 4⟩ = 75 := by
  unfold roundPct
  exact jsRound_eq (by norm_num) (by norm_num)

/-- Claim C4: for every file entry with a path and an `absolute_coverage`
pair, `convertResponseJsonToCoveragePercentages` sets each present output
field to `round(covered*100/total)` for its coverage kind — the output
fields are exactly the `roundPct` images of the present input pairs, so a
field whose source pair is absent is absent from the output (no key at all).
In particular `absolute_coverage = 3/10` with `incremental_coverage = 3/4`
yields absolute 30 and incremental 75, and with `incremental_coverage`
absent the result has no incremental field. -/
theorem c4_percentage_extraction (f : CoverageFilesResponse)
    (pc : PctCoverage) (hpath : f.path ≠ "")
    (habs : f.absolute_coverage = some pc) :
    (convertResponseJsonToCoveragePercentages (filesResponse [f]) =
      Except.ok [(f.path,
        ⟨f.absolute_coverage.map roundPct,
         f.incremental_coverage.map roundPct,
         f.absolute_unit_tests_coverage.map roundPct,
         f.incremental_unit_tests_coverage.map roundPct⟩)] ∧
      f.absolute_coverage.map roundPct = some (roundPct pc)) ∧
    convertResponseJsonToCoveragePercentages (filesResponse
        [mkPctFile "base/test.cc" (some ⟨3, 10⟩) (some ⟨3, 4⟩) none none]) =
      Except.ok [("base/test.cc",
        (⟨some 30, some 75, none, none⟩ : PercentageData))] ∧
    convertResponseJsonToCoveragePercentages (filesResponse
        [mkPctFile "base/test.cc" (some ⟨3, 10⟩) none none none]) =
      Except.ok [("base/test.cc",
        (⟨some 30, none, none, none⟩ : PercentageData))] := by
  refine ⟨⟨?_, by rw [habs]; rfl⟩, ?_, ?_⟩
  · simp [convertResponseJsonToCoveragePercentages, filesResponse,
      convertFilesToPercentages, hpath, habs]
  · simp [convertResponseJsonToCoveragePercentages, filesResponse,
      convertFilesToPercentages, mkPctFile, roundPct_3_10, roundPct_3_4]
  · simp [convertResponseJsonToCoveragePercentages, filesResponse,
      convertFilesToPercentages, mkPctFile, roundPct_3_10]

/-- Witness for C4 at the sample file entry of the repository's tests. -/
theorem c4_witness :
    ((mkPctFile "base/test.cc" (some ⟨3, 10⟩) (some ⟨3, 4⟩) none none).path ≠ "" ∧
      (mkPctFile "base/test.cc" (some ⟨3, 10⟩) (some ⟨3, 4⟩) none
        none).absolute_coverage = some ⟨3, 10⟩) ∧
    convertResponseJsonToCoveragePercentages (filesResponse
        [mkPctFile "base/test.cc" (some ⟨3, 10⟩) (some ⟨3, 4⟩) none none]) =
      Except.ok [("base/test.cc",
        ⟨(some ⟨3, 10⟩ : Option PctCoverage).map roundPct,
         (some ⟨3, 4⟩ : Option PctCoverage).map roundPct,
         (none : Option PctCoverage).map roundPct,
         (none : Option PctCoverage).map roundPct⟩)] :=
  ⟨⟨by decide, rfl⟩,
    ((c4_percentage_extraction
      (mkPctFile "base/test.cc" (some ⟨3, 10⟩) (some ⟨3, 4⟩) none none)
      ⟨3, 10⟩ (by decide) rfl).1).1⟩

theorem rangeCells_mk (s e : Int) (c : Bool) :
    rangeCells (mkCoverageRange s e (some c)) =
      (intRange s e).map (fun n => (n, c)) := by
  cases c <;> rfl

theorem mkCoverageRange_type_inj {a b a2 b2 : Int} {c g : Bool}
    (h : (mkCoverageRange a b (some c)).type =
      (mkCoverageRange a2 b2 (some g)).type) : c = g := by
  cases c <;> cases g <;> simp [mkCoverageRange] at h ⊢

theorem coalesce_no_error :
    ∀ (ls : List LinesCoverage) (startLine endLine : Int)
      (isCovered : Option Bool) (acc : List CoverageRange),
      (∀ l ∈ ls, l.line ≠ 0 ∧ l.count.isNull = false) →
      ∃ rs, coalesceLines ls startLine endLine isCovered acc =
        Except.ok rs := by
  intro ls
  induction ls with
  | nil => intro s e c acc h; exact ⟨_, rfl⟩
  | cons l rest ih =>
    intro s e c acc h
    have hl := h l (List.mem_cons_self _ _)
    have hrest : ∀ x ∈ rest, x.line ≠ 0 ∧ x.count.isNull = false :=
      fun x hx => h x (List.mem_cons_of_mem _ hx)
    rw [coalesceLines]
    rw [if_neg (by
      intro hc
      rcases hc with hc | hc
      · exact hl.1 hc
      · rw [hl.2] at hc; exact Bool.false_ne_true hc)]
    split
    · exact ih s (e + 1) c acc hrest
    · exact ih l.line l.line (some l.count.gtZero) _ hrest

theorem coalesce_eq_runs :
    ∀ (ls : List LinesCoverage) (startLine endLine : Int) (c : Bool)
      (acc : List CoverageRange),
      (∀ l ∈ ls, l.line ≠ 0 ∧ l.line ≠ -1 ∧ l.count.isNull = false) →
      startLine ≠ -1 →
      coalesceLines ls startLine endLine (some c) acc =
        Except.ok (acc ++ coalesceRuns startLine endLine c ls) := by
  intro ls
  induction ls with
  | nil =>
    intro s e c acc h hs
    rw [coalesceLines, coalesceRuns, if_pos hs]
  | cons l rest ih =>
    intro s e c acc h hs
    have hl := h l (List.mem_cons_self _ _)
    have hrest : ∀ x ∈ rest, x.line ≠ 0 ∧ x.line ≠ -1 ∧ x.count.isNull = false :=
      fun x hx => h x (List.mem_cons_of_mem _ hx)
    rw [coalesceLines]
    rw [if_neg (by
      intro hc
      rcases hc with hc | hc
      · exact hl.1 hc
      · rw [hl.2.2] at hc; exact Bool.false_ne_true hc)]
    rw [coalesceRuns]
    by_cases hjoin : l.line = e + 1 ∧ l.count.gtZero = c
    · rw [if_pos ⟨hs, hjoin.1, by rw [hjoin.2]⟩, if_pos hjoin]
      exact ih s (e + 1) c acc hrest hs
    · rw [if_neg (by
        intro hc
        exact hjoin ⟨hc.2.1, (Option.some.inj hc.2.2).symm⟩)]
      rw [if_neg hjoin, if_pos hs]
      rw [ih l.line l.line l.count.gtZero _ hrest hl.2.1]
      simp

theorem coalesce_entry (ls : List LinesCoverage)
    (h : ∀ l ∈ ls, l.line ≠ 0 ∧ l.line ≠ -1 ∧ l.count.isNull = false) :
    coalesceLines ls (-1) (-1) none [] =
      Except.ok (linesToRanges ls) := by
  cases ls with
  | nil =>
    rw [coalesceLines, linesToRanges, if_neg (by omega)]
  | cons l rest =>
    have hl := h l (List.mem_cons_self _ _)
    have hrest : ∀ x ∈ rest, x.line ≠ 0 ∧ x.line ≠ -1 ∧ x.count.isNull = false :=
      fun x hx => h x (List.mem_cons_of_mem _ hx)
    rw [coalesceLines]
    rw [if_neg (by
      intro hc
      rcases hc with hc | hc
      · exact hl.1 hc
      · rw [hl.2.2] at hc; exact Bool.false_ne_true hc)]
    rw [if_neg (by intro hc; exact hc.1 rfl)]
    rw [if_neg (by omega), linesToRanges]
    exact coalesce_eq_runs rest l.line l.line l.count.gtZero [] hrest hl.2.1

theorem coalesceRuns_cells :
    ∀ (ls : List LinesCoverage) (s e : Int) (c : Bool), s ≤ e →
      (coalesceRuns s e c ls).flatMap rangeCells =
        (intRange s e).map (fun n => (n, c)) ++
          ls.map (fun l => (l.line, l.count.gtZero)) := by
  intro ls
  induction ls with
  | nil =>
    intro s e c hse
    rw [coalesceRuns]
    simp [rangeCells_mk]
  | cons l rest ih =>
    intro s e c hse
    rw [coalesceRuns]
    by_cases hjoin : l.line = e + 1 ∧ l.count.gtZero = c
    · rw [if_pos hjoin, ih s (e + 1) c (by omega)]
      rw [intRange_succ (by omega)]
      simp [hjoin.1, hjoin.2]
    · rw [if_neg hjoin]
      rw [List.flatMap_cons, ih l.line l.line l.count.gtZero (le_refl _)]
      rw [intRange_self, rangeCells_mk]
      simp

theorem coalesceRuns_sides :
    ∀ (ls : List LinesCoverage) (s e : Int) (c : Bool), s ≤ e →
      ∀ r ∈ coalesceRuns s e c ls,
        r.side = Side.RIGHT ∧ r.start_line ≤ r.end_line := by
  intro ls
  induction ls with
  | nil =>
    intro s e c hse r hr
    rw [coalesceRuns] at hr
    rcases List.mem_singleton.mp hr with rfl
    exact ⟨rfl, hse⟩
  | cons l rest ih =>
    intro s e c hse r hr
    rw [coalesceRuns] at hr
    by_cases hjoin : l.line = e + 1 ∧ l.count.gtZero = c
    · rw [if_pos hjoin] at hr
      exact ih s (e + 1) c (by omega) r hr
    · rw [if_neg hjoin] at hr
      rcases List.mem_cons.mp hr with rfl | hr
      · exact ⟨rfl, hse⟩
      · exact ih l.line l.line l.count.gtZero (le_refl _) r hr

theorem coalesceRuns_head :
    ∀ (ls : List LinesCoverage) (s e : Int) (c : Bool),
      ∃ e2 rest2, coalesceRuns s e c ls =
        mkCoverageRange s e2 (some c) :: rest2 := by
  intro ls
  induction ls with
  | nil => intro s e c; exact ⟨e, [], rfl⟩
  | cons l rest ih =>
    intro s e c
    rw [coalesceRuns]
    by_cases hjoin : l.line = e + 1 ∧ l.count.gtZero = c
    · rw [if_pos hjoin]
      exact ih s (e + 1) c
    · rw [if_neg hjoin]
      exact ⟨e, _, rfl⟩

theorem coalesceRuns_chain :
    ∀ (ls : List LinesCoverage) (s e : Int) (c : Bool),
      List.Chain' notMergeable (coalesceRuns s e c ls) := by
  intro ls
  induction ls with
  | nil => intro s e c; rw [coalesceRuns]; exact List.chain'_singleton _
  | cons l rest ih =>
    intro s e c
    rw [coalesceRuns]
    by_cases hjoin : l.line = e + 1 ∧ l.count.gtZero = c
    · rw [if_pos hjoin]; exact ih s (e + 1) c
    · rw [if_neg hjoin]
      obtain ⟨e2, rest2, heq⟩ :=
        coalesceRuns_head rest l.line l.line l.count.gtZero
      rw [heq]
      refine List.chain'_cons.mpr ⟨?_, heq ▸ ih l.line l.line l.count.gtZero⟩
      intro hc
      obtain ⟨hstart, htype⟩ := hc
      exact hjoin ⟨hstart, (mkCoverageRange_type_inj htype).symm⟩

theorem linesToRanges_cells (ls : List LinesCoverage) :
    (linesToRanges ls).flatMap rangeCells =
      ls.map (fun l => (l.line, l.count.gtZero)) := by
  cases ls with
  | nil => rfl
  | cons l rest =>
    rw [linesToRanges, coalesceRuns_cells rest l.line l.line _ (le_refl _)]
    rw [intRange_self]
    rfl

theorem linesToRanges_sides (ls : List LinesCoverage) :
    ∀ r ∈ linesToRanges ls, r.side = Side.RIGHT ∧
      r.start_line ≤ r.end_line := by
  cases ls with
  | nil => intro r hr; exact absurd hr (List.not_mem_nil r)
  | cons l rest =>
    exact coalesceRuns_sides rest l.line l.line l.count.gtZero (le_refl _)

theorem linesToRanges_chain (ls : List LinesCoverage) :
    List.Chain' notMergeable (linesToRanges ls) := by
  cases ls with
  | nil => exact List.chain'_nil
  | cons l rest => exact coalesceRuns_chain rest l.line l.line l.count.gtZero

theorem convert_single_file (path : String) (ls : List LinesCoverage)
    (rs : List CoverageRange) (hpath : path ≠ "")
    (hco : coalesceLines (sortLinesCoverage ls) (-1) (-1) none [] =
      Except.ok rs) :
    convertResponseJsonToCoverageRanges
        (filesResponse [mkLinesFile path (some ls)]) =
      Except.ok [(path, rs)] := by
  show convertFilesToRanges [mkLinesFile path (some ls)] = _
  rw [convertFilesToRanges]
  rw [if_neg (by
    intro hc
    rcases hc with hc | hc
    · exact hpath hc
    · exact Option.some_ne_none ls hc)]
  show (match coalesceLines (sortLinesCoverage ls) (-1) (-1) none [] with
    | Except.error e => Except.error e
    | Except.ok ranges =>
      match convertFilesToRanges [] with
      | Except.error e => Except.error e
      | Except.ok restRanges => Except.ok ((path, ranges) :: restRanges)) = _
  rw [hco]
  rfl

/-- Claim C3, counterexample: a line numbered `-1` is truthy in JavaScript
and its count is non-null, yet the coalescer silently drops it — the run it
opens collides with the `-1` sentinel the loop uses for "no open run", so
the flush never emits it.  The emitted list is empty and hence not a
decomposition of the input lines, while the claim demands the (unique,
minimal, maximal-contiguous-run) decomposition, here the single range
`[-1, -1]`. -/
theorem c3_counterexample :
    convertResponseJsonToCoverageRanges (filesResponse
        [mkLinesFile "base/test.cc" (some [⟨-1, JsCount.num 5⟩])]) =
      Except.ok [("base/test.cc", [])] ∧
    (((-1 : Int) ≠ 0) ∧ (JsCount.num 5).isNull = false) ∧
    ([] : List CoverageRange).flatMap rangeCells ≠
      (sortLinesCoverage [⟨-1, JsCount.num 5⟩]).map
        (fun l => (l.line, l.count.gtZero)) := by
  refine ⟨rfl, ⟨by decide, rfl⟩, ?_⟩
  decide

/-- Claim C3 as amended: for every file entry whose lines all have a truthy
line number other than `-1` and a non-null count (and, to keep the
JavaScript sort deterministic, pairwise distinct line numbers),
`convertResponseJsonToCoverageRanges` succeeds and emits for that file the
unique minimal list of maximal contiguous ranges of the ascending-sorted
lines: flattening the ranges back into (line, covered) cells recovers
exactly the sorted lines with their `count > 0` classification (so a line
joins a run iff it extends it by one and matches its classification, and a
range is COVERED iff its lines have positive counts); every range has side
RIGHT and a well-ordered span; and no two adjacent ranges can be merged.
In particular lines (10,10),(11,0),(12,0) yield exactly
RIGHT/COVERED/10-10 and RIGHT/NOT_COVERED/11-12. -/
theorem c3_range_coalescing (path : String) (ls : List LinesCoverage)
    (hpath : path ≠ "")
    (hlines : ∀ l ∈ ls, l.line ≠ 0 ∧ l.line ≠ -1 ∧ l.count.isNull = false)
    (hnodup : (ls.map LinesCoverage.line).Nodup) :
    convertResponseJsonToCoverageRanges
        (filesResponse [mkLinesFile path (some ls)]) =
      Except.ok [(path, linesToRanges (sortLinesCoverage ls))] ∧
    (linesToRanges (sortLinesCoverage ls)).flatMap rangeCells =
      (sortLinesCoverage ls).map (fun l => (l.line, l.count.gtZero)) ∧
    (∀ r ∈ linesToRanges (sortLinesCoverage ls),
      r.side = Side.RIGHT ∧ r.start_line ≤ r.end_line) ∧
    List.Chain' notMergeable (linesToRanges (sortLinesCoverage ls)) ∧
    convertResponseJsonToCoverageRanges (filesResponse
        [mkLinesFile "base/test.cc" (some [⟨10, JsCount.num 10⟩,
          ⟨11, JsCount.num 0⟩, ⟨12, JsCount.num 0⟩])]) =
      Except.ok [("base/test.cc",
        [⟨Side.RIGHT, CoverageType.COVERED, 10, 10⟩,
         ⟨Side.RIGHT, CoverageType.NOT_COVERED, 11, 12⟩])] := by
  have hsortmem : ∀ l ∈ sortLinesCoverage ls,
      l.line ≠ 0 ∧ l.line ≠ -1 ∧ l.count.isNull = false := by
    intro l hl
    rw [sortLinesCoverage] at hl
    exact hlines l
      ((List.perm_insertionSort (fun a b => a.line ≤ b.line) ls).mem_iff.mp hl)
  refine ⟨?_, linesToRanges_cells _, linesToRanges_sides _,
    linesToRanges_chain _, rfl⟩
  exact convert_single_file path ls _ hpath (coalesce_entry _ hsortmem)

/-- Witness for C3 as amended at the repository test's sample lines. -/
theorem c3_witness :
    (("base/test.cc" : String) ≠ "" ∧
      (∀ l ∈ ([⟨10, JsCount.num 10⟩, ⟨11, JsCount.num 0⟩,
          ⟨12, JsCount.num 0⟩] : List LinesCoverage),
        l.line ≠ 0 ∧ l.line ≠ -1 ∧ l.count.isNull = false) ∧
      (([⟨10, JsCount.num 10⟩, ⟨11, JsCount.num 0⟩,
          ⟨12, JsCount.num 0⟩] : List LinesCoverage).map
        LinesCoverage.line).Nodup) ∧
    convertResponseJsonToCoverageRanges
        (filesResponse [mkLinesFile "base/test.cc"
          (some [⟨10, JsCount.num 10⟩, ⟨11, JsCount.num 0⟩,
            ⟨12, JsCount.num 0⟩])]) =
      Except.ok [("base/test.cc",
        linesToRanges (sortLinesCoverage [⟨10, JsCount.num 10⟩,
          ⟨11, JsCount.num 0⟩, ⟨12, JsCount.num 0⟩]))] ∧
    (linesToRanges (sortLinesCoverage [⟨10, JsCount.num 10⟩,
        ⟨11, JsCount.num 0⟩, ⟨12, JsCount.num 0⟩])).flatMap rangeCells =
      (sortLinesCoverage [⟨10, JsCount.num 10⟩, ⟨11, JsCount.num 0⟩,
        ⟨12, JsCount.num 0⟩]).map (fun l => (l.line, l.count.gtZero)) :=
  ⟨⟨by decide, by decide, by decide⟩,
    (c3_range_coalescing "base/test.cc" _ (by decide) (by decide)
      (by decide)).1,
    (c3_range_coalescing "base/test.cc" _ (by decide) (by decide)
      (by decide)).2.1⟩

theorem convertFilesToRanges_ok_valid :
    ∀ (fs : List CoverageFilesResponse)
      (m : List (String × List CoverageRange)),
      convertFilesToRanges fs = Except.ok m →
      ∀ f ∈ fs, f.path ≠ "" ∧ f.lines ≠ none := by
  intro fs
  induction fs with
  | nil => intro m h f hf; exact absurd hf (List.not_mem_nil f)
  | cons f rest ih =>
    intro m h f2 hf2
    rw [convertFilesToRanges] at h
    split at h
    · exact absurd h (by simp)
    · next hguard =>
      push_neg at hguard
      rcases List.mem_cons.mp hf2 with rfl | hf2
      · exact hguard
      · split at h
        · exact absurd h (by simp)
        · split at h
          · exact absurd h (by simp)
          · split at h
            · exact absurd h (by simp)
            · next m2 hm2 => exact ih m2 hm2 f2 hf2

/-- Claim C8, counterexample: a file entry with a present but empty `lines`
array is accepted — an empty array is truthy in JavaScript, so the
`!responseFile.lines` check passes and the file yields an empty range list,
while the claim demands a malformed-response failure for an empty line
list. -/
theorem c8_counterexample :
    convertResponseJsonToCoverageRanges
        (filesResponse [mkLinesFile "base/test.cc" (some [])]) =
      Except.ok [("base/test.cc", [])] := by
  rfl

/-- Claim C8 as amended: `convertResponseJsonToCoverageRanges` fails with a
malformed-response error whenever some file entry's path is empty/absent or
its line list is absent; a present-but-empty line list is accepted and
yields an empty range list for that file; equivalently, on success every
file entry had a non-empty path and a present line list. -/
theorem c8_file_entry_validation (resp : CoverageResponse)
    (fs : List CoverageFilesResponse) (hresp : resp.data = some ⟨some fs⟩)
    (hbad : ∃ f ∈ fs, f.path = "" ∨ f.lines = none) :
    (∃ msg, convertResponseJsonToCoverageRanges resp = Except.error msg) ∧
    (∀ p, p ≠ "" →
      convertResponseJsonToCoverageRanges
          (filesResponse [mkLinesFile p (some [])]) =
        Except.ok [(p, [])]) := by
  constructor
  · have hconv : convertResponseJsonToCoverageRanges resp =
        convertFilesToRanges fs := by
      unfold convertResponseJsonToCoverageRanges
      rw [hresp]
    cases hres : convertFilesToRanges fs with
    | error e => exact ⟨e, by rw [hconv, hres]⟩
    | ok m =>
      obtain ⟨f, hf, hfbad⟩ := hbad
      have hval := convertFilesToRanges_ok_valid fs m hres f hf
      rcases hfbad with hfbad | hfbad
      · exact absurd hfbad hval.1
      · exact absurd hfbad hval.2
  · intro p hp
    exact convert_single_file p [] [] hp rfl

/-- Witness for C8 as amended: a file entry with an absent line list makes
the conversion fail. -/
theorem c8_witness :
    ((filesResponse [mkLinesFile "base/test.cc" none]).data =
      some ⟨some [mkLinesFile "base/test.cc" none]⟩ ∧
      ∃ f ∈ [mkLinesFile "base/test.cc" none],
        f.path = "" ∨ f.lines = none) ∧
    (∃ msg, convertResponseJsonToCoverageRanges
        (filesResponse [mkLinesFile "base/test.cc" none]) =
      Except.error msg) ∧
    (∀ p, p ≠ "" →
      convertResponseJsonToCoverageRanges
          (filesResponse [mkLinesFile p (some [])]) =
        Except.ok [(p, [])]) :=
  ⟨⟨rfl, ⟨mkLinesFile "base/test.cc" none, List.mem_cons_self _ _,
      Or.inr rfl⟩⟩,
    c8_file_entry_validation (filesResponse [mkLinesFile "base/test.cc" none])
      [mkLinesFile "base/test.cc" none] rfl
      ⟨mkLinesFile "base/test.cc" none, List.mem_cons_self _ _, Or.inr rfl⟩⟩

/-- Claim C10: a line whose `count` property is entirely absent
(`undefined`) passes the validation — only `count === null` is rejected —
and is classified NOT_COVERED because `undefined > 0` is false: for every
file entry whose lines have truthy line numbers and non-null (possibly
absent) counts the conversion raises no malformed-response error, and a
single line (5, undefined) yields the single range RIGHT/NOT_COVERED/5-5. -/
theorem c10_undefined_count (path : String) (ls : List LinesCoverage)
    (hpath : path ≠ "")
    (hlines : ∀ l ∈ ls, l.line ≠ 0 ∧ l.count.isNull = false) :
    (∃ m, convertResponseJsonToCoverageRanges
        (filesResponse [mkLinesFile path (some ls)]) = Except.ok m) ∧
    JsCount.gtZero JsCount.undef = false ∧
    JsCount.isNull JsCount.undef = false ∧
    convertResponseJsonToCoverageRanges (filesResponse
        [mkLinesFile "base/test.cc" (some [⟨5, JsCount.undef⟩])]) =
      Except.ok [("base/test.cc",
        [⟨Side.RIGHT, CoverageType.NOT_COVERED, 5, 5⟩])] := by
  refine ⟨?_, rfl, rfl, rfl⟩
  have hsortmem : ∀ l ∈ sortLinesCoverage ls,
      l.line ≠ 0 ∧ l.count.isNull = false := by
    intro l hl
    rw [sortLinesCoverage] at hl
    exact hlines l
      ((List.perm_insertionSort (fun a b => a.line ≤ b.line) ls).mem_iff.mp hl)
  obtain ⟨rs, hrs⟩ :=
    coalesce_no_error (sortLinesCoverage ls) (-1) (-1) none [] hsortmem
  exact ⟨[(path, rs)], convert_single_file path ls rs hpath hrs⟩

/-- Witness for C10: a single line with an absent count is accepted. -/
theorem c10_witness :
    (("base/test.cc" : String) ≠ "" ∧
      (∀ l ∈ ([⟨5, JsCount.undef⟩] : List LinesCoverage),
        l.line ≠ 0 ∧ l.count.isNull = false)) ∧
    (∃ m, convertResponseJsonToCoverageRanges
        (filesResponse [mkLinesFile "base/test.cc"
          (some [⟨5, JsCount.undef⟩])]) = Except.ok m) ∧
    convertResponseJsonToCoverageRanges (filesResponse
        [mkLinesFile "base/test.cc" (some [⟨5, JsCount.undef⟩])]) =
      Except.ok [("base/test.cc",
        [⟨Side.RIGHT, CoverageType.NOT_COVERED, 5, 5⟩])] :=
  ⟨⟨by decide, by decide⟩,
    (c10_undefined_count "base/test.cc" [⟨5, JsCount.undef⟩]
      (by decide) (by decide)).1,
    (c10_undefined_count "base/test.cc" [⟨5, JsCount.undef⟩]
      (by decide) (by decide)).2.2.2⟩

theorem update_preserves_aux (s : ClientState) (k : CoverageChangeInfo) :
    (updateCoverageDataIfNecessary s k).1.pendingAwaits = s.pendingAwaits ∧
    (updateCoverageDataIfNecessary s k).1.accessorResults =
      s.accessorResults ∧
    (updateCoverageDataIfNecessary s k).1.settled = s.settled ∧
    s.nextPromiseId ≤ (updateCoverageDataIfNecessary s k).1.nextPromiseId := by
  rcases updateCoverageDataIfNecessary_cases s k with h | h <;> rw [h]
  · exact ⟨rfl, rfl, rfl, le_refl _⟩
  · exact ⟨rfl, rfl, rfl, by simp [replaceCoverageData]⟩

theorem pidsFresh_update (n : Nat) (s : ClientState)
    (k : CoverageChangeInfo) (h : pidsFresh n s) :
    pidsFresh n (updateCoverageDataIfNecessary s k).1 := by
  obtain ⟨h1, h2, h3, h4⟩ := h
  rcases updateCoverageDataIfNecessary_cases s k with hu | hu <;> rw [hu]
  · exact ⟨h1, h2, h3, h4⟩
  · refine ⟨?_, ?_, h3, h4⟩
    · show n ≤ s.nextPromiseId + 2
      omega
    · intro cd hcd
      simp only [replaceCoverageData, Option.some.injEq] at hcd
      rw [← hcd]
      refine ⟨h1, ?_⟩
      show n ≤ s.nextPromiseId + 1
      omega

theorem pidsFresh_step (n : Nat) (s : ClientState) (e : ClientEvent)
    (h : pidsFresh n s) : pidsFresh n (stepClient s e) := by
  cases e with
  | update k => exact pidsFresh_update n s k h
  | beginAccessor k kind tid =>
    obtain ⟨ha, hb, hc, hd⟩ := pidsFresh_update n s k h
    simp only [stepClient]
    split
    · next cd hcd =>
      refine ⟨ha, ?_, ?_, hd⟩
      · intro cd2 hcd2
        exact hb cd2 hcd2
      · intro tp htp
        rcases List.mem_cons.mp htp with rfl | htp
        · have hbd := hb cd hcd
          cases kind
          · exact hbd.1
          · exact hbd.2
        · exact hc tp htp
    · next hcd =>
      refine ⟨ha, hb, hc, ?_⟩
      intro tr htr pid hpid
      rcases List.mem_cons.mp htr with rfl | htr
      · exact absurd hpid (by simp)
      · exact hd tr htr pid hpid
  | settleFetch pid => exact h
  | finishAccessor tid =>
    obtain ⟨ha, hb, hc, hd⟩ := h
    simp only [stepClient]
    split
    · next pid hlk =>
      split
      · refine ⟨ha, hb, hc, ?_⟩
        intro tr htr pid2 hpid2
        rcases List.mem_cons.mp htr with rfl | htr
        · have hpp : pid = pid2 := by simpa using hpid2
          rw [← hpp]
          exact hc _ (jsGet_mem hlk)
        · exact hd tr htr pid2 hpid2
      · exact ⟨ha, hb, hc, hd⟩
    · exact ⟨ha, hb, hc, hd⟩

theorem pidsFresh_run (n : Nat) (es : List ClientEvent) :
    ∀ s : ClientState, pidsFresh n s → pidsFresh n (runClient s es) := by
  induction es with
  | nil => intro s h; exact h
  | cons e rest ih =>
    intro s h
    exact ih (stepClient s e) (pidsFresh_step n s e h)

theorem quiet_step_preserves (s : ClientState) (e : ClientEvent)
    (hq : e.isQuiet = true) (hpend : s.pendingAwaits = []) :
    (stepClient s e).coverageData = s.coverageData ∧
    (stepClient s e).nextPromiseId = s.nextPromiseId ∧
    (stepClient s e).promiseKeys = s.promiseKeys ∧
    (stepClient s e).pendingAwaits = [] ∧
    (stepClient s e).accessorResults = s.accessorResults := by
  cases e with
  | update k => exact absurd hq (by simp [ClientEvent.isQuiet])
  | beginAccessor k kind tid =>
    exact absurd hq (by simp [ClientEvent.isQuiet])
  | settleFetch pid => exact ⟨rfl, rfl, rfl, hpend, rfl⟩
  | finishAccessor tid =>
    simp [stepClient, hpend, jsGet]

theorem quiet_run_preserves (es : List ClientEvent) :
    ∀ s : ClientState, (∀ e ∈ es, e.isQuiet = true) →
      s.pendingAwaits = [] →
      (runClient s es).coverageData = s.coverageData ∧
      (runClient s es).nextPromiseId = s.nextPromiseId ∧
      (runClient s es).promiseKeys = s.promiseKeys ∧
      (runClient s es).pendingAwaits = [] ∧
      (runClient s es).accessorResults = s.accessorResults := by
  induction es with
  | nil => intro s hq hpend; exact ⟨rfl, rfl, rfl, hpend, rfl⟩
  | cons e rest ih =>
    intro s hq hpend
    have hstep := quiet_step_preserves s e (hq e (List.mem_cons_self _ _))
      hpend
    have hrest := ih (stepClient s e)
      (fun e2 he2 => hq e2 (List.mem_cons_of_mem _ he2)) hstep.2.2.2.1
    exact ⟨hrest.1.trans hstep.1, hrest.2.1.trans hstep.2.1,
      hrest.2.2.1.trans hstep.2.2.1, hrest.2.2.2.1,
      hrest.2.2.2.2.trans hstep.2.2.2.2⟩

theorem usesOnly_step_preserves (s : ClientState)
    (k : CoverageChangeInfo) (cd : CoverageData) (e : ClientEvent)
    (hcd : s.coverageData = some cd) (hk : cd.changeInfo = k)
    (hue : e.usesOnly k = true) :
    (stepClient s e).coverageData = some cd ∧
    (stepClient s e).promiseKeys = s.promiseKeys := by
  cases e with
  | update k2 =>
    have hk2 : k2 = k := by simpa [ClientEvent.usesOnly] using hue
    have hnoop := update_same_key_noop s k2 cd hcd (hk2 ▸ hk)
    simp [stepClient, hnoop, hcd]
  | beginAccessor k2 kind tid =>
    have hk2 : k2 = k := by simpa [ClientEvent.usesOnly] using hue
    have hnoop := update_same_key_noop s k2 cd hcd (hk2 ▸ hk)
    simp [stepClient, hnoop, hcd]
  | settleFetch pid => exact ⟨hcd, rfl⟩
  | finishAccessor tid =>
    simp only [stepClient]
    split
    · next pid hlk =>
      split
      · exact ⟨hcd, rfl⟩
      · exact ⟨hcd, rfl⟩
    · exact ⟨hcd, rfl⟩

theorem usesOnly_run_preserves (es : List ClientEvent) :
    ∀ (s : ClientState) (k : CoverageChangeInfo) (cd : CoverageData),
      s.coverageData = some cd → cd.changeInfo = k →
      (∀ e ∈ es, e.usesOnly k = true) →
      (runClient s es).coverageData = some cd ∧
      (runClient s es).promiseKeys = s.promiseKeys := by
  induction es with
  | nil => intro s k cd hcd hk hue; exact ⟨hcd, rfl⟩
  | cons e rest ih =>
    intro s k cd hcd hk hue
    have hstep := usesOnly_step_preserves s k cd e hcd hk
      (hue e (List.mem_cons_self _ _))
    have hrest := ih (stepClient s e) k cd hstep.1 hk
      (fun e2 he2 => hue e2 (List.mem_cons_of_mem _ he2))
    exact ⟨hrest.1, hrest.2.trans hstep.2⟩

/-- Claim C1: in every interleaving in which `updateCoverageDataIfNecessary`
runs with a valid key K1 (starting K1's two fetches, the promises numbered
`n0` and `n0+1`), then — after any stretch of fetch resolutions, i.e.
regardless of whether K1's fetches have settled — runs with a different
valid key K2, the entry is replaced by one holding the fresh promises
`n0+2` and `n0+3` fetched for K2.  From then on, under every continuation
of the event loop, every accessor call that begins after the replacement
snapshots the promise of the then-current entry before awaiting and never
re-reads it, so every result it can ever return comes from a promise
numbered at least `n0+2` — never from K1's promises `n0`/`n0+1`, no matter
in which order the fetches settle.  And in every continuation whose updates
and accessor calls all use K2, the cached `coverageData` still holds the K2
entry whose stored promises were fetched for K2, never K1's. -/
theorem c1_stale_fetch_invisibility (s0 : ClientState)
    (K1 K2 : CoverageChangeInfo) (es1 : List ClientEvent)
    (h1 : invalidChangeKey K1 = false) (h2 : invalidChangeKey K2 = false)
    (hne : K1 ≠ K2)
    (hcache : ∀ cd, s0.coverageData = some cd → cd.changeInfo ≠ K1)
    (hpend : s0.pendingAwaits = []) (hres : s0.accessorResults = [])
    (hq : ∀ e ∈ es1, e.isQuiet = true) :
    (stepClient s0 (ClientEvent.update K1)).coverageData =
      some ⟨K1, s0.nextPromiseId, s0.nextPromiseId + 1⟩ ∧
    jsGet s0.nextPromiseId
        (stepClient s0 (ClientEvent.update K1)).promiseKeys =
      some (K1, FetchKind.lines) ∧
    jsGet (s0.nextPromiseId + 1)
        (stepClient s0 (ClientEvent.update K1)).promiseKeys =
      some (K1, FetchKind.percentages) ∧
    (raceStates s0 K1 K2 es1).coverageData =
      some ⟨K2, s0.nextPromiseId + 2, s0.nextPromiseId + 3⟩ ∧
    (∀ es tid r,
      jsGet tid (runClient (raceStates s0 K1 K2 es1) es).accessorResults =
        some r →
      ∀ pid, r = some pid → s0.nextPromiseId + 2 ≤ pid) ∧
    (∀ es, (∀ e ∈ es, e.usesOnly K2 = true) →
      (runClient (raceStates s0 K1 K2 es1) es).coverageData =
        some ⟨K2, s0.nextPromiseId + 2, s0.nextPromiseId + 3⟩ ∧
      jsGet (s0.nextPromiseId + 2)
          (runClient (raceStates s0 K1 K2 es1) es).promiseKeys =
        some (K2, FetchKind.lines) ∧
      jsGet (s0.nextPromiseId + 3)
          (runClient (raceStates s0 K1 K2 es1) es).promiseKeys =
        some (K2, FetchKind.percentages)) := by
  have hrep1 : updateCoverageDataIfNecessary s0 K1 =
      replaceCoverageData s0 K1 := update_valid_replaces s0 K1 h1 hcache
  have hs1cd : (stepClient s0 (ClientEvent.update K1)).coverageData =
      some ⟨K1, s0.nextPromiseId, s0.nextPromiseId + 1⟩ := by
    show ((updateCoverageDataIfNecessary s0 K1).1).coverageData = _
    rw [hrep1]
    rfl
  have hs1keys : (stepClient s0 (ClientEvent.update K1)).promiseKeys =
      (s0.nextPromiseId, K1, FetchKind.lines) ::
        (s0.nextPromiseId + 1, K1, FetchKind.percentages) ::
          s0.promiseKeys := by
    show ((updateCoverageDataIfNecessary s0 K1).1).promiseKeys = _
    rw [hrep1]
    rfl
  have hs1next : (stepClient s0 (ClientEvent.update K1)).nextPromiseId =
      s0.nextPromiseId + 2 := by
    show ((updateCoverageDataIfNecessary s0 K1).1).nextPromiseId = _
    rw [hrep1]
    rfl
  have hs1pend : (stepClient s0 (ClientEvent.update K1)).pendingAwaits =
      [] := by
    show ((updateCoverageDataIfNecessary s0 K1).1).pendingAwaits = _
    rw [hrep1]
    exact hpend
  have hs1res : (stepClient s0 (ClientEvent.update K1)).accessorResults =
      [] := by
    show ((updateCoverageDataIfNecessary s0 K1).1).accessorResults = _
    rw [hrep1]
    exact hres
  have hq1 := quiet_run_preserves es1 (stepClient s0 (ClientEvent.update K1))
    hq hs1pend
  have hmidcd : (runClient (stepClient s0 (ClientEvent.update K1))
      es1).coverageData =
      some ⟨K1, s0.nextPromiseId, s0.nextPromiseId + 1⟩ :=
    hq1.1.trans hs1cd
  have hmidnext : (runClient (stepClient s0 (ClientEvent.update K1))
      es1).nextPromiseId = s0.nextPromiseId + 2 :=
    hq1.2.1.trans hs1next
  have hmidkeys : (runClient (stepClient s0 (ClientEvent.update K1))
      es1).promiseKeys =
      (s0.nextPromiseId, K1, FetchKind.lines) ::
        (s0.nextPromiseId + 1, K1, FetchKind.percentages) ::
          s0.promiseKeys :=
    hq1.2.2.1.trans hs1keys
  have hmidpend : (runClient (stepClient s0 (ClientEvent.update K1))
      es1).pendingAwaits = [] := hq1.2.2.2.1
  have hmidres : (runClient (stepClient s0 (ClientEvent.update K1))
      es1).accessorResults = [] := hq1.2.2.2.2.trans hs1res
  have hdiff2 : ∀ cd,
      (runClient (stepClient s0 (ClientEvent.update K1))
        es1).coverageData = some cd → cd.changeInfo ≠ K2 := by
    intro cd hcd
    rw [hmidcd] at hcd
    obtain rfl := (Option.some.inj hcd).symm
    exact fun h => hne h
  have hrep2 : updateCoverageDataIfNecessary
      (runClient (stepClient s0 (ClientEvent.update K1)) es1) K2 =
      replaceCoverageData
        (runClient (stepClient s0 (ClientEvent.update K1)) es1) K2 :=
    update_valid_replaces _ K2 h2 hdiff2
  have h23 : s0.nextPromiseId + 2 + 1 = s0.nextPromiseId + 3 := by omega
  have hs2cd : (raceStates s0 K1 K2 es1).coverageData =
      some ⟨K2, s0.nextPromiseId + 2, s0.nextPromiseId + 3⟩ := by
    show ((updateCoverageDataIfNecessary _ K2).1).coverageData = _
    rw [hrep2]
    simp only [replaceCoverageData]
    rw [hmidnext, h23]
  have hs2keys : (raceStates s0 K1 K2 es1).promiseKeys =
      (s0.nextPromiseId + 2, K2, FetchKind.lines) ::
        (s0.nextPromiseId + 3, K2, FetchKind.percentages) ::
          ((s0.nextPromiseId, K1, FetchKind.lines) ::
            (s0.nextPromiseId + 1, K1, FetchKind.percentages) ::
              s0.promiseKeys) := by
    show ((updateCoverageDataIfNecessary _ K2).1).promiseKeys = _
    rw [hrep2]
    simp only [replaceCoverageData]
    rw [hmidnext, h23, hmidkeys]
  have hs2next : (raceStates s0 K1 K2 es1).nextPromiseId =
      s0.nextPromiseId + 4 := by
    show ((updateCoverageDataIfNecessary _ K2).1).nextPromiseId = _
    rw [hrep2]
    simp only [replaceCoverageData]
    rw [hmidnext]
  have hs2pend : (raceStates s0 K1 K2 es1).pendingAwaits = [] := by
    show ((updateCoverageDataIfNecessary _ K2).1).pendingAwaits = _
    rw [hrep2]
    exact hmidpend
  have hs2res : (raceStates s0 K1 K2 es1).accessorResults = [] := by
    show ((updateCoverageDataIfNecessary _ K2).1).accessorResults = _
    rw [hrep2]
    exact hmidres
  have hfresh : pidsFresh (s0.nextPromiseId + 2) (raceStates s0 K1 K2 es1) := by
    refine ⟨?_, ?_, ?_, ?_⟩
    · rw [hs2next]; omega
    · intro cd hcd
      rw [hs2cd] at hcd
      obtain rfl := (Option.some.inj hcd).symm
      refine ⟨?_, ?_⟩
      · show s0.nextPromiseId + 2 ≤ s0.nextPromiseId + 2
        omega
      · show s0.nextPromiseId + 2 ≤ s0.nextPromiseId + 3
        omega
    · rw [hs2pend]
      intro tp htp
      exact absurd htp (List.not_mem_nil tp)
    · rw [hs2res]
      intro tr htr
      exact absurd htr (List.not_mem_nil tr)
  refine ⟨hs1cd, ?_, ?_, hs2cd, ?_, ?_⟩
  · rw [hs1keys, jsGet, if_pos rfl]
  · rw [hs1keys, jsGet, if_neg (by omega), jsGet, if_pos rfl]
  · intro es tid r hr pid hpid
    have hfr := pidsFresh_run (s0.nextPromiseId + 2) es _ hfresh
    exact hfr.2.2.2 (tid, r) (jsGet_mem hr) pid hpid
  · intro es hue
    have hrun := usesOnly_run_preserves es (raceStates s0 K1 K2 es1) K2
      ⟨K2, s0.nextPromiseId + 2, s0.nextPromiseId + 3⟩ hs2cd rfl hue
    refine ⟨hrun.1, ?_, ?_⟩
    · rw [hrun.2, hs2keys, jsGet, if_pos rfl]
    · rw [hrun.2, hs2keys, jsGet, if_neg (by omega), jsGet, if_pos rfl]

/-- Witness for C1: patchsets 1 and 2 of the repository test's sample
change, from the fresh client state, with K1's lines fetch settling between
the two updates. -/
theorem c1_witness :
    (invalidChangeKey ⟨"chromium-review.googlesource.com", "chromium/src",
        JsNum.int 12345, some (JsNum.int 1)⟩ = false ∧
      invalidChangeKey ⟨"chromium-review.googlesource.com", "chromium/src",
        JsNum.int 12345, some (JsNum.int 2)⟩ = false ∧
      (⟨"chromium-review.googlesource.com", "chromium/src", JsNum.int 12345,
          some (JsNum.int 1)⟩ : CoverageChangeInfo) ≠
        ⟨"chromium-review.googlesource.com", "chromium/src", JsNum.int 12345,
          some (JsNum.int 2)⟩ ∧
      ClientState.init.pendingAwaits = [] ∧
      ClientState.init.accessorResults = [] ∧
      (∀ e ∈ [ClientEvent.settleFetch 0], e.isQuiet = true)) ∧
    ((stepClient ClientState.init (ClientEvent.update
        ⟨"chromium-review.googlesource.com", "chromium/src", JsNum.int 12345,
          some (JsNum.int 1)⟩)).coverageData =
      some ⟨⟨"chromium-review.googlesource.com", "chromium/src",
        JsNum.int 12345, some (JsNum.int 1)⟩,
        ClientState.init.nextPromiseId,
        ClientState.init.nextPromiseId + 1⟩ ∧
    jsGet ClientState.init.nextPromiseId
        (stepClient ClientState.init (ClientEvent.update
          ⟨"chromium-review.googlesource.com", "chromium/src",
            JsNum.int 12345, some (JsNum.int 1)⟩)).promiseKeys =
      some (⟨"chromium-review.googlesource.com", "chromium/src",
        JsNum.int 12345, some (JsNum.int 1)⟩, FetchKind.lines) ∧
    jsGet (ClientState.init.nextPromiseId + 1)
        (stepClient ClientState.init (ClientEvent.update
          ⟨"chromium-review.googlesource.com", "chromium/src",
            JsNum.int 12345, some (JsNum.int 1)⟩)).promiseKeys =
      some (⟨"chromium-review.googlesource.com", "chromium/src",
        JsNum.int 12345, some (JsNum.int 1)⟩, FetchKind.percentages) ∧
    (raceStates ClientState.init
        ⟨"chromium-review.googlesource.com", "chromium/src", JsNum.int 12345,
          some (JsNum.int 1)⟩
        ⟨"chromium-review.googlesource.com", "chromium/src", JsNum.int 12345,
          some (JsNum.int 2)⟩
        [ClientEvent.settleFetch 0]).coverageData =
      some ⟨⟨"chromium-review.googlesource.com", "chromium/src",
        JsNum.int 12345, some (JsNum.int 2)⟩,
        ClientState.init.nextPromiseId + 2,
        ClientState.init.nextPromiseId + 3⟩ ∧
    (∀ es tid r,
      jsGet tid (runClient (raceStates ClientState.init
        ⟨"chromium-review.googlesource.com", "chromium/src", JsNum.int 12345,
          some (JsNum.int 1)⟩
        ⟨"chromium-review.googlesource.com", "chromium/src", JsNum.int 12345,
          some (JsNum.int 2)⟩
        [ClientEvent.settleFetch 0]) es).accessorResults = some r →
      ∀ pid, r = some pid → ClientState.init.nextPromiseId + 2 ≤ pid) ∧
    (∀ es, (∀ e ∈ es, e.usesOnly
        ⟨"chromium-review.googlesource.com", "chromium/src", JsNum.int 12345,
          some (JsNum.int 2)⟩ = true) →
      (runClient (raceStates ClientState.init
        ⟨"chromium-review.googlesource.com", "chromium/src", JsNum.int 12345,
          some (JsNum.int 1)⟩
        ⟨"chromium-review.googlesource.com", "chromium/src", JsNum.int 12345,
          some (JsNum.int 2)⟩
        [ClientEvent.settleFetch 0]) es).coverageData =
        some ⟨⟨"chromium-review.googlesource.com", "chromium/src",
          JsNum.int 12345, some (JsNum.int 2)⟩,
          ClientState.init.nextPromiseId + 2,
          ClientState.init.nextPromiseId + 3⟩ ∧
      jsGet (ClientState.init.nextPromiseId + 2)
          (runClient (raceStates ClientState.init
            ⟨"chromium-review.googlesource.com", "chromium/src",
              JsNum.int 12345, some (JsNum.int 1)⟩
            ⟨"chromium-review.googlesource.com", "chromium/src",
              JsNum.int 12345, some (JsNum.int 2)⟩
            [ClientEvent.settleFetch 0]) es).promiseKeys =
        some (⟨"chromium-review.googlesource.com", "chromium/src",
          JsNum.int 12345, some (JsNum.int 2)⟩, FetchKind.lines) ∧
      jsGet (ClientState.init.nextPromiseId + 3)
          (runClient (raceStates ClientState.init
            ⟨"chromium-review.googlesource.com", "chromium/src",
              JsNum.int 12345, some (JsNum.int 1)⟩
            ⟨"chromium-review.googlesource.com", "chromium/src",
              JsNum.int 12345, some (JsNum.int 2)⟩
            [ClientEvent.settleFetch 0]) es).promiseKeys =
        some (⟨"chromium-review.googlesource.com", "chromium/src",
          JsNum.int 12345, some (JsNum.int 2)⟩, FetchKind.percentages))) :=
  ⟨⟨rfl, rfl, by decide, rfl, rfl, by decide⟩,
    c1_stale_fetch_invisibility ClientState.init
      ⟨"chromium-review.googlesource.com", "chromium/src", JsNum.int 12345,
        some (JsNum.int 1)⟩
      ⟨"chromium-review.googlesource.com", "chromium/src", JsNum.int 12345,
        some (JsNum.int 2)⟩
      [ClientEvent.settleFetch 0]
      rfl rfl (by decide) (fun cd h => nomatch h) rfl rfl (by decide)⟩

end ChromiumCoverage
